import Mathlib

/-!
Shallow embedding of the tinker turn-orchestration engine.

Strings from the Go source are modelled as `List Char`; Go's `(value, error)`
return pairs are modelled with `Except` or with `_ × Option _` when the value
is used even in the error case; provider/network calls are modelled as oracle
functions supplied in an environment record.
-/

namespace Tinker

/-- Message roles (package message: UserRole, AssistantRole, plus Gemini's model role). -/
inductive Role where
  | user
  | assistant
  | model
  deriving DecidableEq

/-- Content block variants of package message: TextBlock, ToolUseBlock,
ToolResultBlock (fields ToolUseID, ToolName, Content, IsError). -/
inductive ContentBlock where
  | text (text : List Char)
  | toolUse (id name input : List Char)
  | toolResult (toolUseID toolName content : List Char) (isError : Bool)
  deriving DecidableEq

/-- A message: role, ordered content blocks, and the sequence number assigned
by Conversation.Append (conversation.go). -/
structure Message where
  role : Role
  content : List ContentBlock
  sequence : Nat
  deriving DecidableEq

/-- The separator string inserted by BaseLLMClient.BaseTruncateMessage
(inference.go lines 137-139). -/
def truncSep : List Char := "\n... [TRUNCATED] ...\n".data

/-- Content replacement performed by BaseTruncateMessage on a ToolResult block
whose content length is at least the threshold:
content[:threshold/2] + sep + content[len-threshold/2:]. -/
def truncateContent (content : List Char) (threshold : Nat) : List Char :=
  content.take (threshold / 2) ++ truncSep ++
    content.drop (content.length - threshold / 2)

/-- Embedding of the loop of BaseLLMClient.BaseTruncateMessage
(inference.go lines 129-149).  Note that on the first ToolResult block whose
content length is below the threshold the Go code does `return msg`, so the
remaining blocks are returned unprocessed. -/
def truncateBlocks (threshold : Nat) : List ContentBlock → List ContentBlock
  | [] => []
  | .toolResult id name c e :: rest =>
    if c.length < threshold then .toolResult id name c e :: rest
    else .toolResult id name (truncateContent c threshold) e ::
      truncateBlocks threshold rest
  | .text s :: rest => .text s :: truncateBlocks threshold rest
  | .toolUse id name input :: rest => .toolUse id name input ::
      truncateBlocks threshold rest

/-- BaseLLMClient.BaseTruncateMessage lifted to a whole message. -/
def truncateMessage (msg : Message) (threshold : Nat) : Message :=
  { msg with content := truncateBlocks threshold msg.content }

/-- The separator string the spec sentence for TruncateMessage spells out. -/
def truncSepSpec : List Char := "...[TRUNCATED]...".data

/-- TruncateMessage as the spec sentence describes it: every ToolResult block
whose content length is at least the threshold is replaced independently, with
separator "...[TRUNCATED]...", and every other block is untouched. -/
def truncateBlocksSpec (threshold : Nat) (blocks : List ContentBlock) :
    List ContentBlock :=
  blocks.map fun b =>
    match b with
    | .toolResult id name c e =>
      if threshold ≤ c.length then
        .toolResult id name
          (c.take (threshold / 2) ++ truncSepSpec ++
            c.drop (c.length - threshold / 2)) e
      else .toolResult id name c e
    | b => b

/-- Is this a ToolResult block whose content length is below the threshold
(the block at which the code's loop stops)? -/
def isShortToolResult (threshold : Nat) : ContentBlock → Bool
  | .toolResult _ _ c _ => c.length < threshold
  | _ => false

/-- Truncation of a single block as the code performs it on a block found in
the processed prefix. -/
def truncateOne (threshold : Nat) : ContentBlock → ContentBlock
  | .toolResult id name c e => .toolResult id name (truncateContent c threshold) e
  | b => b

/-- Amended description of BaseTruncateMessage: blocks are scanned in order,
the scan stops at the first ToolResult block with short content (that block
and everything after it are returned untouched), and every block in the
scanned prefix is truncated when it is a ToolResult. -/
def truncateBlocksAmended (threshold : Nat) (blocks : List ContentBlock) :
    List ContentBlock :=
  (blocks.takeWhile (fun b => !isShortToolResult threshold b)).map
      (truncateOne threshold) ++
    blocks.dropWhile (fun b => !isShortToolResult threshold b)

/-- Embedding of BaseLLMClient.BaseSummarizeHistory (inference.go lines
110-126): below the threshold the history is returned unchanged, otherwise the
first message is kept together with the most recent `threshold` messages. -/
def summarizeHistory (history : List Message) (threshold : Nat) :
    List Message :=
  if history.length ≤ threshold then history
  else history.take 1 ++ history.drop (history.length - threshold)

/-- A plan (package data).  Its fields beyond the identifier play no role in
the orchestration paths modelled here, so only the identifier is kept. -/
structure Plan where
  id : List Char
  deriving DecidableEq

/-- The empty plan value `&data.Plan\x7b\x7d` that executeLocalTool injects into the
input of a plain (non-plan) tool. -/
def emptyPlan : Plan := { id := [] }

/-- Input handed to a tool function (package tools): the raw JSON argument
string plus the injected plan. -/
structure ToolInput where
  rawInput : List Char
  plan : Plan

/-- A registered tool (package tools): name, description, the delegating-tool
flag IsSubTool, and the tool function of Go type (ToolInput) → (string, error),
modelled as a pair of the returned string and the optional error text. -/
structure ToolDefinition where
  name : List Char
  description : List Char
  inputSchema : List Char
  isSubTool : Bool
  func : ToolInput → List Char × Option (List Char)

/-- Events recorded against the Conversation/Plan store, used to observe the
persistence behaviour of Agent.executePlanTool. -/
inductive StoreEvent where
  | getPlanEv (convID : List Char)
  | createPlanEv (convID : List Char)
  | savePlanEv (plan : Plan)
  deriving DecidableEq

/-- Is this store event a persistence (write) event: CreatePlan or SavePlan? -/
def isPersistEvent : StoreEvent → Bool
  | .createPlanEv _ => true
  | .savePlanEv _ => true
  | .getPlanEv _ => false

/-- Oracle model of the api.Client plan calls.  GetPlan and CreatePlan return
a Go pair (*Plan, error), so a successful call may still carry a nil plan,
modelled with the inner Option. -/
structure ApiClient where
  getPlan : List Char → Except (List Char) (Option Plan)
  createPlan : List Char → Except (List Char) (Option Plan)
  savePlanErr : Plan → Option (List Char)

/-- Does the pattern occur at the head of the list? -/
def leadsWith : List Char → List Char → Bool
  | [], _ => true
  | _ :: _, [] => false
  | a :: as, b :: bs => a == b && leadsWith as bs

/-- Does the pattern occur contiguously anywhere in the list? -/
def hasSub (pat : List Char) : List Char → Bool
  | [] => pat.isEmpty
  | c :: rest => leadsWith pat (c :: rest) || hasSub pat rest

/-- The check `strings.Contains(strings.ToLower(err.Error()), "not found")`
from Agent.executePlanTool (agent.go line 328). -/
def containsNotFound (e : List Char) : Bool :=
  hasSub "not found".data (e.map Char.toLower)

/-- Error text of agent.go line 331 (the quotes around the ID are elided). -/
def errCreatePlan (convID e : List Char) : List Char :=
  "plan_write: failed to create new plan for conversation with ID ".data ++
    convID ++ " for adding steps: ".data ++ e

/-- Error text of agent.go line 334 (the quotes around the ID are elided). -/
def errGetPlan (convID e : List Char) : List Char :=
  "plan_write: failed to get plan with conversation ID ".data ++ convID ++
    ": ".data ++ e

/-- Error text of agent.go line 339. -/
def errNilPlan : List Char :=
  "plan_write: plan object is nil after GetPlan/CreatePlan".data

/-- Error text of agent.go line 346 (the quotes around the ID are elided). -/
def errSavePlan (convID e : List Char) : List Char :=
  "plan_write: failed to save plan ".data ++ convID ++
    " after setting status: ".data ++ e

/-- Tail of Agent.executePlanTool once the plan is resolved (agent.go lines
338-357): nil-plan check, tool function call, unconditional SavePlan (the
function's error is overwritten by the SavePlan error at line 345), and
return of the response with a nil error. -/
def planToolAfterResolve (client : ApiClient) (convID : List Char)
    (toolFn : ToolInput → List Char × Option (List Char))
    (rawInput : List Char) (planOpt : Option Plan) (evs : List StoreEvent) :
    Except (List Char) (List Char) × List StoreEvent :=
  match planOpt with
  | none => (.error errNilPlan, evs)
  | some p =>
    let r := toolFn { rawInput := rawInput, plan := p }
    match client.savePlanErr p with
    | some e => (.error (errSavePlan convID e), evs ++ [.savePlanEv p])
    | none => (.ok r.1, evs ++ [.savePlanEv p])

/-- Embedding of Agent.executePlanTool (agent.go lines 322-358), instrumented
with the list of store events it performs, in order. -/
def executePlanToolEv (client : ApiClient) (convID : List Char)
    (toolFn : ToolInput → List Char × Option (List Char))
    (rawInput : List Char) :
    Except (List Char) (List Char) × List StoreEvent :=
  match client.getPlan convID with
  | .ok planOpt =>
    planToolAfterResolve client convID toolFn rawInput planOpt
      [.getPlanEv convID]
  | .error e =>
    if containsNotFound e then
      match client.createPlan convID with
      | .error e2 =>
        (.error (errCreatePlan convID e2),
          [.getPlanEv convID, .createPlanEv convID])
      | .ok planOpt =>
        planToolAfterResolve client convID toolFn rawInput planOpt
          [.getPlanEv convID, .createPlanEv convID]
    else (.error (errGetPlan convID e), [.getPlanEv convID])

/-- Oracle model of the subagent: the decode of the rawInput query field
(json.Unmarshal into tools.FinderInput) and Subagent.Run. -/
structure SubagentEnv where
  decodeQuery : List Char → Except (List Char) (List Char)
  subRun : List Char → List Char → Except (List Char) Message

/-- The dispatch environment of an Agent: the MCP tool map domain, the MCP
server call oracle, the local tool registry, the subagent, the plan-store
client and the owning conversation id. -/
structure Env where
  mcpNames : List (List Char)
  mcpCall : List Char → List Char → Except (List Char) (Option (List Char))
  toolBox : List ToolDefinition
  sub : SubagentEnv
  client : ApiClient
  convID : List Char

/-- Embedding of Agent.executeMCPTool (agent.go lines 222-253).  The argument
decode (whose error the code ignores) is absorbed into the call oracle; the
oracle's `.ok none` stands for a nil result and `.ok (some s)` for a result
that stringifies to s. -/
def executeMCPTool (env : Env) (id name input : List Char) : ContentBlock :=
  match env.mcpCall name input with
  | .error e =>
    .toolResult id name
      ("MCP tool ".data ++ name ++ " execution error: ".data ++ e) true
  | .ok none =>
    .toolResult id name
      "Tool executed successfully but returned no content".data false
  | .ok (some content) =>
    if content.isEmpty then
      .toolResult id name
        "Tool executed successfully but returned empty content".data false
    else .toolResult id name content false

/-- The linear search over the ToolBox in Agent.executeLocalTool (agent.go
lines 260-266). -/
def findTool (toolBox : List ToolDefinition) (name : List Char) :
    Option ToolDefinition :=
  toolBox.find? (fun t => t.name == name)

/-- Embedding of Agent.runSubagent (agent.go lines 360-380): a decode failure
of the query field is returned as an error (with a nil message), otherwise the
subagent runs. -/
def runSubagentM (env : Env) (description rawInput : List Char) :
    Except (List Char) Message :=
  match env.sub.decodeQuery rawInput with
  | .error e => .error e
  | .ok query => env.sub.subRun description query

/-- Fold of the truncated subagent message into one output string
(agent.go lines 283-294): text blocks and tool-result contents concatenated. -/
def foldMessageText : List ContentBlock → List Char
  | [] => []
  | .text s :: rest => s ++ foldMessageText rest
  | .toolResult _ _ c _ :: rest => c ++ foldMessageText rest
  | .toolUse _ _ _ :: rest => foldMessageText rest

/-- Conversion of executePlanTool's Go return pair: the error paths all return
an empty response string. -/
def exceptToPair : Except (List Char) (List Char) →
    List Char × Option (List Char)
  | .error e => ([], some e)
  | .ok s => (s, none)

/-- The (toolOutput, err) pair computed by the non-delegating branch of
Agent.executeLocalTool (agent.go lines 296-311): plan tools are routed
through executePlanTool, every other tool function is invoked directly with
the raw input and the empty injected plan. -/
def localToolResultPair (env : Env) (toolDef : ToolDefinition)
    (input : List Char) : List Char × Option (List Char) :=
  if toolDef.name = "plan_write".data ∨ toolDef.name = "plan_read".data
  then exceptToPair
    (executePlanToolEv env.client env.convID toolDef.func input).1
  else toolDef.func { rawInput := input, plan := emptyPlan }

/-- Embedding of Agent.executeLocalTool (agent.go lines 256-320).  The result
is `none` when the Go code panics: for a delegating tool whose runSubagent
call fails, the nil message is passed to TruncateMessage at line 278 before
the error check at line 279, and ranging over the Content field of a nil
message dereferences a nil pointer. -/
def executeLocalTool (env : Env) (id name input : List Char) :
    Option ContentBlock :=
  match findTool env.toolBox name with
  | none => some (.toolResult id name "tool not found".data true)
  | some toolDef =>
    if toolDef.isSubTool then
      match runSubagentM env toolDef.description input with
      | .error _ => none
      | .ok msg =>
        some (.toolResult id name
          (foldMessageText (truncateMessage msg 25000).content) false)
    else
      match localToolResultPair env toolDef input with
      | (_, some e) => some (.toolResult id name e true)
      | (out, none) => some (.toolResult id name out false)

/-- Embedding of Agent.executeTool (agent.go lines 151-166): MCP tools are
routed to their server, everything else to the local registry.  The onDelta
summary line is presentation-only and not modelled. -/
def executeTool (env : Env) (id name input : List Char) :
    Option ContentBlock :=
  if env.mcpNames.contains name then some (executeMCPTool env id name input)
  else executeLocalTool env id name input

/-- The ToolUse blocks of a message content, in order, as (id, name, input)
triples: the blocks the loop of Agent.Run at lines 110-116 dispatches. -/
def toolUses : List ContentBlock → List (List Char × List Char × List Char)
  | [] => []
  | .toolUse id name input :: rest => (id, name, input) :: toolUses rest
  | .text _ :: rest => toolUses rest
  | .toolResult _ _ _ _ :: rest => toolUses rest

/-- The tool-dispatch phase of one iteration of Agent.Run (lines 109-116):
one result collected per ToolUse block, in order; `none` when some dispatch
panics. -/
def dispatchResults (env : Env) : List ContentBlock →
    Option (List ContentBlock)
  | [] => some []
  | .toolUse id name input :: rest =>
    match executeTool env id name input, dispatchResults env rest with
    | some r, some rs => some (r :: rs)
    | _, _ => none
  | .text _ :: rest => dispatchResults env rest
  | .toolResult _ _ _ _ :: rest => dispatchResults env rest

/-- A conversation (package data): id and ordered messages.  The token count
and timestamps play no role in the properties modelled here. -/
structure Conversation where
  id : List Char
  messages : List Message
  deriving DecidableEq

/-- Embedding of Conversation.Append (conversation.go): the appended message
receives the current length of the message list as its sequence number. -/
def Conversation.append (c : Conversation) (m : Message) : Conversation :=
  { c with messages :=
      c.messages ++ [{ m with sequence := c.messages.length }] }

/-- The conversation NewConversation returns: no messages yet. -/
def emptyConv : Conversation := { id := [], messages := [] }

/-- Oracle model of an inference.LLMClient as Agent.Run consumes it: the
error results of the translation calls, the successive RunInference outcomes,
and the CountTokens outcome.  The native-state side effects of the
translation calls are absorbed into the inference script. -/
structure LLMModel where
  toNativeHistoryErr : List Message → Option (List Char)
  toNativeToolsErr : Option (List Char)
  toNativeMessageErr : Message → Option (List Char)
  inferenceResults : List (Except (List Char) Message)
  countTokensResult : Except (List Char) Nat

/-- Outcome of a Run call: normal return with the token count, an error
return, a panic, or exhaustion of the modelled inference script. -/
inductive RunOutcome where
  | ok (conv : Conversation) (tokenCount : Nat)
  | error (e : List Char) (conv : Conversation)
  | panic (conv : Conversation)
  | outOfFuel (conv : Conversation)
  deriving DecidableEq

/-- The user message Agent.Run builds from the user input (agent.go lines
84-87). -/
def userInputMsg (userInput : List Char) : Message :=
  { role := .user, content := [.text userInput], sequence := 0 }

/-- The single user-role message bundling the collected tool results
(agent.go lines 136-139). -/
def toolResultMsg (rs : List ContentBlock) : Message :=
  { role := .user, content := rs, sequence := 0 }

/-- The loop of Agent.Run from the inference call on (agent.go lines 97-147),
driven by the remaining inference script.  Each iteration: inference, native
translation of the reply, append to the Conversation, tool dispatch; with no
tool results the conversation is saved (the error of saveConversation is
discarded at line 122), tokens are counted and Run returns; otherwise the
bundled tool-result message is translated, appended, and the loop repeats. -/
def runLoop (msgErr : Message → Option (List Char))
    (ctRes : Except (List Char) Nat) (env : Env) :
    List (Except (List Char) Message) → Conversation → RunOutcome
  | [], conv => .outOfFuel conv
  | infRes :: rest, conv =>
    match infRes with
    | .error e => .error e conv
    | .ok agentMsg =>
      match msgErr agentMsg with
      | some e => .error e conv
      | none =>
        let conv1 := conv.append agentMsg
        match dispatchResults env agentMsg.content with
        | none => .panic conv1
        | some rs =>
          match rs with
          | [] =>
            match ctRes with
            | .error e => .error e conv1
            | .ok n => .ok conv1 n
          | _ :: _ =>
            let m := toolResultMsg rs
            match msgErr m with
            | some e => .error e conv1
            | none => runLoop msgErr ctRes env rest (conv1.append m)

/-- Embedding of Agent.Run (agent.go lines 70-149).  The history is compacted
with threshold 20 (line 74); ToNativeHistory (line 77) and ToNativeTools
(line 80) are called but their returned errors are discarded by the code, so
they cannot influence the outcome; then the user message is translated,
appended, and the loop runs. -/
def runModel (llm : LLMModel) (env : Env) (conv : Conversation)
    (userInput : List Char) : RunOutcome :=
  let conv0 : Conversation :=
    { conv with messages := summarizeHistory conv.messages 20 }
  let userMsg := userInputMsg userInput
  match llm.toNativeMessageErr userMsg with
  | some e => .error e conv0
  | none =>
    runLoop llm.toNativeMessageErr llm.countTokensResult env
      llm.inferenceResults (conv0.append userMsg)

/-- Conversations reachable through the orchestrator's operations: the fresh
conversation, Append during the turn loop, and the history compaction at the
start of Run (agent.go line 74). -/
inductive ReachableConv : Conversation → Prop where
  | empty : ReachableConv emptyConv
  | append (m : Message) {c : Conversation} :
      ReachableConv c → ReachableConv (c.append m)
  | compact {c : Conversation} : ReachableConv c →
      ReachableConv { c with messages := summarizeHistory c.messages 20 }

/-- The sequence-number invariant of the spec: Messages[i].Sequence == i. -/
def SeqOK (c : Conversation) : Prop :=
  ∀ i (h : i < c.messages.length), (c.messages.get ⟨i, h⟩).sequence = i

instance (c : Conversation) : Decidable (SeqOK c) :=
  inferInstanceAs (Decidable (∀ i (h : i < c.messages.length),
    (c.messages.get ⟨i, h⟩).sequence = i))

/-- An Anthropic-native tool parameter (anthropic.ToolParam) as far as the
translation is observable: name, description and the raw input schema. -/
structure AnthropicToolParam where
  name : List Char
  description : List Char
  inputSchema : List Char
  deriving DecidableEq

/-- toAnthropicTool (anthropic.go lines 321-342).  Both conversion error
paths in the Go function are commented out, so the conversion is total. -/
def toAnthropicTool (t : ToolDefinition) : AnthropicToolParam :=
  { name := t.name, description := t.description,
    inputSchema := t.inputSchema }

/-- Embedding of AnthropicClient.ToNativeTools (anthropic.go lines 253-270)
as a function on the client's native tool state: empty input returns nil and
leaves the state unchanged, otherwise the state is rebuilt. -/
def anthropicToNativeTools (current : List AnthropicToolParam)
    (defs : List ToolDefinition) :
    Except (List Char) (List AnthropicToolParam) :=
  if defs.length = 0 then .ok current
  else .ok (defs.map toAnthropicTool)

/-- A Gemini function declaration (genai.FunctionDeclaration) as far as the
translation is observable. -/
structure GeminiFunctionDecl where
  name : List Char
  description : List Char
  parameters : List Char
  deriving DecidableEq

/-- Oracle for schema.ConvertToGeminiSchema. -/
structure GeminiEnv where
  convertSchema : List Char → Except (List Char) (List Char)

/-- toFunctionDeclaration of the Gemini client. -/
def toFunctionDeclaration (g : GeminiEnv) (t : ToolDefinition) :
    Except (List Char) GeminiFunctionDecl :=
  match g.convertSchema t.inputSchema with
  | .error e =>
    .error ("failed to convert schema to Gemini format: ".data ++ e)
  | .ok params =>
    .ok { name := t.name, description := t.description, parameters := params }

/-- Embedding of GeminiClient.ToNativeTools as a function on the client's
native tool state: empty input returns the error "gemini: no tools provided"
(leaving the state unchanged), otherwise the state becomes one built-in tool
holding all function declarations. -/
def geminiToNativeTools (g : GeminiEnv)
    (current : List (List GeminiFunctionDecl)) (defs : List ToolDefinition) :
    Except (List Char) (List (List GeminiFunctionDecl)) :=
  if defs.length = 0 then .error "gemini: no tools provided".data
  else
    match defs.mapM (toFunctionDeclaration g) with
    | .error e => .error e
    | .ok decls => .ok [decls]

/-- TruncateMessage as the spec sentence describes it, on a whole message. -/
def truncateMessageSpec (msg : Message) (threshold : Nat) : Message :=
  { msg with content := truncateBlocksSpec threshold msg.content }

/-- Concrete user message used in witnesses. -/
def msgA : Message := { role := .user, content := [.text "a".data], sequence := 0 }

/-- Concrete assistant message used in witnesses. -/
def msgB : Message :=
  { role := .assistant, content := [.text "b".data], sequence := 1 }

/-- Concrete user message used in witnesses. -/
def msgC : Message := { role := .user, content := [.text "c".data], sequence := 2 }

/-- A message holding one ToolResult block with content of length 4. -/
def msgLongTR : Message :=
  { role := .user,
    content := [.toolResult "u".data "t".data "aaaa".data false],
    sequence := 0 }

/-- A message holding a short ToolResult block followed by a long one. -/
def msgShortLongTR : Message :=
  { role := .user,
    content := [.toolResult "u".data "t".data "b".data false,
      .toolResult "v".data "t".data "cccc".data false],
    sequence := 0 }

/-- A dispatch result answers a ToolUse triple when it is a ToolResult block
whose ToolUseID is the ToolUse's id. -/
def answersId (r : ContentBlock)
    (u : List Char × List Char × List Char) : Prop :=
  ∃ tn c e, r = .toolResult u.1 tn c e

/-- A plain tool that echoes its raw input. -/
def echoToolDef : ToolDefinition :=
  { name := "echo".data, description := [], inputSchema := [],
    isSubTool := false, func := fun ti => (ti.rawInput, none) }

/-- A benign store client used in concrete environments. -/
def benignClient : ApiClient :=
  { getPlan := fun _ => .ok none, createPlan := fun _ => .ok none,
    savePlanErr := fun _ => none }

/-- A concrete dispatch environment: no MCP tools, only the echo tool. -/
def dispatchEnvW : Env :=
  { mcpNames := [], mcpCall := fun _ _ => .ok none,
    toolBox := [echoToolDef],
    sub := { decodeQuery := fun _ => .ok [], subRun := fun _ _ => .error [] },
    client := benignClient,
    convID := [] }

/-- A model reply requesting two tool calls: one registered, one unknown. -/
def agentMsgW : Message :=
  { role := .assistant,
    content := [.toolUse "u1".data "echo".data "a".data,
      .toolUse "u2".data "missing".data "b".data],
    sequence := 0 }

/-- A delegating tool definition used to exercise the subagent path. -/
def finderToolDef : ToolDefinition :=
  { name := "finder".data, description := "search the codebase".data,
    inputSchema := [], isSubTool := true, func := fun _ => ([], none) }

/-- Environment registering the delegating finder tool, whose query decode
always fails (modelling malformed JSON raw input). -/
def subFailEnv : Env :=
  { mcpNames := [], mcpCall := fun _ _ => .ok none,
    toolBox := [finderToolDef],
    sub := { decodeQuery := fun _ => .error "unexpected end of JSON input".data,
             subRun := fun _ _ => .error [] },
    client := benignClient,
    convID := [] }

/-- A registered plan_write tool whose function always returns an error. -/
def failingPlanTool : ToolDefinition :=
  { name := "plan_write".data, description := [], inputSchema := [],
    isSubTool := false, func := fun _ => ([], some "boom".data) }

/-- Environment registering the failing plan_write tool over a store in which
the plan exists and saving succeeds. -/
def planSwallowEnv : Env :=
  { mcpNames := [], mcpCall := fun _ _ => .ok none,
    toolBox := [failingPlanTool],
    sub := { decodeQuery := fun _ => .ok [], subRun := fun _ _ => .error [] },
    client := { getPlan := fun _ => .ok (some { id := "p1".data }),
                createPlan := fun _ => .ok none,
                savePlanErr := fun _ => none },
    convID := "c1".data }

/-- A store client for which GetPlan fails with a not-found error and
CreatePlan succeeds: the first-use scenario of a plan tool. -/
def firstUseClient : ApiClient :=
  { getPlan := fun _ => .error "history: plan not found".data,
    createPlan := fun _ => .ok (some { id := "p2".data }),
    savePlanErr := fun _ => none }

/-- An LLM model whose ToNativeHistory call fails while everything else
succeeds and the single inference returns a plain text reply. -/
def histFailLLM : LLMModel :=
  { toNativeHistoryErr :=
      fun _ => some "native history translation failed".data,
    toNativeToolsErr := none,
    toNativeMessageErr := fun _ => none,
    inferenceResults :=
      [.ok { role := .assistant, content := [.text "hi".data],
             sequence := 0 }],
    countTokensResult := .ok 7 }

/-- A one-message conversation, so that Run's ToNativeHistory call is made. -/
def convOneMsg : Conversation := { id := "c0".data, messages := [msgA] }

/-- A message with empty content used to populate conversations. -/
def dummyMsg : Message := { role := .user, content := [], sequence := 0 }

/-- A conversation built by 25 Appends to a fresh conversation. -/
def conv25 : Conversation :=
  (List.range 25).foldl (fun c _ => c.append dummyMsg) emptyConv

/-- conv25 after the history compaction Run performs (threshold 20). -/
def conv25compact : Conversation :=
  { conv25 with messages := summarizeHistory conv25.messages 20 }

/-- Concrete Gemini schema-conversion oracle. -/
def geminiEnvW : GeminiEnv := { convertSchema := fun s => .ok s }

theorem truncSep_length : truncSep.length = 21 := rfl

theorem truncateContent_length (c : List Char) (t : Nat) (h : t ≤ c.length) :
    (truncateContent c t).length = t / 2 + 21 + t / 2 := by
  have h2 : t / 2 ≤ c.length := le_trans (Nat.div_le_self t 2) h
  unfold truncateContent
  rw [List.length_append, List.length_append, List.length_take,
    List.length_drop, truncSep_length]
  omega

theorem truncateContent_ge (c : List Char) (t : Nat) (h : t ≤ c.length) :
    t ≤ (truncateContent c t).length := by
  rw [truncateContent_length c t h]
  omega

theorem truncateContent_idem (c : List Char) (t : Nat) (h : t ≤ c.length) :
    truncateContent (truncateContent c t) t = truncateContent c t := by
  have h2 : t / 2 ≤ c.length := le_trans (Nat.div_le_self t 2) h
  have ha : (c.take (t / 2)).length = t / 2 := by
    rw [List.length_take]; omega
  have hab : (c.take (t / 2) ++ truncSep).length = t / 2 + 21 := by
    rw [List.length_append, ha, truncSep_length]
  have hx := truncateContent_length c t h
  have hxt : (truncateContent c t).take (t / 2) = c.take (t / 2) := by
    conv_lhs => rw [show truncateContent c t =
      c.take (t / 2) ++ (truncSep ++ c.drop (c.length - t / 2)) from by
        rw [truncateContent, List.append_assoc]]
    exact List.take_left' ha
  have hxd : (truncateContent c t).drop
      ((truncateContent c t).length - t / 2) = c.drop (c.length - t / 2) := by
    rw [hx, show t / 2 + 21 + t / 2 - t / 2 = t / 2 + 21 from by omega]
    rw [show truncateContent c t =
      (c.take (t / 2) ++ truncSep) ++ c.drop (c.length - t / 2) from by
        rw [truncateContent]]
    exact List.drop_left' hab
  calc truncateContent (truncateContent c t) t
      = (truncateContent c t).take (t / 2) ++ truncSep ++
          (truncateContent c t).drop ((truncateContent c t).length - t / 2) :=
        rfl
    _ = c.take (t / 2) ++ truncSep ++ c.drop (c.length - t / 2) := by
        rw [hxt, hxd]
    _ = truncateContent c t := rfl

theorem truncateBlocks_idem (t : Nat) (bs : List ContentBlock) :
    truncateBlocks t (truncateBlocks t bs) = truncateBlocks t bs := by
  induction bs with
  | nil => rfl
  | cons b rest ih =>
    cases b with
    | text s => simp [truncateBlocks, ih]
    | toolUse id name input => simp [truncateBlocks, ih]
    | toolResult id name c e =>
      by_cases hc : c.length < t
      · simp [truncateBlocks, hc]
      · push_neg at hc
        have h1 : ¬ (truncateContent c t).length < t := by
          have := truncateContent_ge c t hc
          omega
        have hc' : ¬ c.length < t := by omega
        simp [truncateBlocks, hc', h1, truncateContent_idem c t hc, ih]

theorem truncateBlocks_eq_amended (t : Nat) (bs : List ContentBlock) :
    truncateBlocks t bs = truncateBlocksAmended t bs := by
  induction bs with
  | nil => rfl
  | cons b rest ih =>
    cases b with
    | text s =>
      simp [truncateBlocks, truncateBlocksAmended, List.takeWhile_cons,
        List.dropWhile_cons, isShortToolResult, truncateOne] at ih ⊢
      exact ih
    | toolUse id name input =>
      simp [truncateBlocks, truncateBlocksAmended, List.takeWhile_cons,
        List.dropWhile_cons, isShortToolResult, truncateOne] at ih ⊢
      exact ih
    | toolResult id name c e =>
      by_cases hc : c.length < t
      · simp [truncateBlocks, truncateBlocksAmended, List.takeWhile_cons,
          List.dropWhile_cons, isShortToolResult, hc]
      · simp [truncateBlocks, truncateBlocksAmended, List.takeWhile_cons,
          List.dropWhile_cons, isShortToolResult, hc, truncateOne] at ih ⊢
        exact ih

/-- C2: SummarizeHistory returns the history unchanged when its length is at
most the threshold; otherwise the result has length threshold+1, keeps the
first (anchor) message, and its remainder is the most recent threshold
messages in their original relative order. -/
theorem summarizeHistory_spec (H : List Message) (t : Nat) :
    (H.length ≤ t → summarizeHistory H t = H) ∧
    (t < H.length →
      (summarizeHistory H t).length = t + 1 ∧
      (summarizeHistory H t).head? = H.head? ∧
      (summarizeHistory H t).drop 1 = H.drop (H.length - t)) := by
  constructor
  · intro h
    simp [summarizeHistory, h]
  · intro h
    have hnot : ¬ H.length ≤ t := by omega
    cases H with
    | nil => simp at h
    | cons a l =>
      refine ⟨?_, ?_, ?_⟩
      · simp only [summarizeHistory, hnot, if_false, List.length_append,
          List.length_take, List.length_drop]
        simp only [List.length_cons] at h ⊢
        omega
      · have hnot' : ¬ l.length + 1 ≤ t := by
          simp only [List.length_cons] at hnot; exact hnot
        simp [summarizeHistory, hnot']
      · have hnot' : ¬ l.length + 1 ≤ t := by
          simp only [List.length_cons] at hnot; exact hnot
        simp [summarizeHistory, hnot']

/-- Witness for C2 at a concrete three-message history with threshold 2. -/
theorem summarizeHistory_spec_witness :
    2 < ([msgA, msgB, msgC] : List Message).length ∧
    ((summarizeHistory [msgA, msgB, msgC] 2).length = 2 + 1 ∧
      (summarizeHistory [msgA, msgB, msgC] 2).head? =
        ([msgA, msgB, msgC] : List Message).head? ∧
      (summarizeHistory [msgA, msgB, msgC] 2).drop 1 =
        ([msgA, msgB, msgC] : List Message).drop
          (([msgA, msgB, msgC] : List Message).length - 2)) :=
  ⟨by decide, (summarizeHistory_spec [msgA, msgB, msgC] 2).2 (by decide)⟩

/-- C6 counterexample: on a message with one ToolResult of content length 4
and threshold 4, the code's replacement string differs from the spec's
"...[TRUNCATED]..."; and on a message whose first ToolResult is short the
code returns early, leaving the later long ToolResult untouched, unlike the
spec's per-block description. -/
theorem truncateMessage_spec_counterexample :
    truncateMessage msgLongTR 4 ≠ truncateMessageSpec msgLongTR 4 ∧
    truncateMessage msgShortLongTR 4 ≠ truncateMessageSpec msgShortLongTR 4 := by
  constructor <;> decide

/-- C6 (amended): TruncateMessage scans the content blocks in order and stops
at the first ToolResult block whose content length is below the threshold,
returning that block and everything after it untouched; every ToolResult
block in the scanned prefix (whose content length is necessarily at least the
threshold) has its content replaced by
content[:threshold/2] ++ "\n... [TRUNCATED] ...\n" ++
content[len-threshold/2:], and non-ToolResult blocks are never modified. -/
theorem truncateMessage_amended (msg : Message) (t : Nat) :
    truncateMessage msg t =
      { msg with content := truncateBlocksAmended t msg.content } := by
  unfold truncateMessage
  rw [truncateBlocks_eq_amended]

/-- C7: TruncateMessage is idempotent: applying it twice with the same
threshold equals applying it once. -/
theorem truncateMessage_idem (msg : Message) (t : Nat) :
    truncateMessage (truncateMessage msg t) t = truncateMessage msg t := by
  unfold truncateMessage
  simp [truncateBlocks_idem]

/-- C10 counterexample: GeminiClient.ToNativeTools applied to an empty tool
list returns the error "gemini: no tools provided" instead of succeeding with
the tool state unchanged, so the no-op contract fails for the Gemini
provider. -/
theorem geminiToNativeTools_empty_counterexample :
    geminiToNativeTools geminiEnvW [] [] =
      .error "gemini: no tools provided".data ∧
    geminiToNativeTools geminiEnvW [] [] ≠ .ok [] := by
  refine ⟨rfl, ?_⟩
  intro h
  simp [geminiToNativeTools] at h

/-- C10 (amended): AnthropicClient.ToNativeTools on an empty tool list is a
no-op — it returns without error and leaves the client's native tool state
unchanged — but GeminiClient.ToNativeTools instead returns the error
"gemini: no tools provided" (also leaving the state unchanged), so the no-op
behaviour holds for the Anthropic provider only. -/
theorem toNativeTools_empty (st : List AnthropicToolParam) (g : GeminiEnv)
    (gst : List (List GeminiFunctionDecl)) :
    anthropicToNativeTools st [] = .ok st ∧
    geminiToNativeTools g gst [] =
      .error "gemini: no tools provided".data := by
  exact ⟨rfl, rfl⟩

/-- C9: when the query decode of a delegating tool's raw input fails,
runSubagent does surface the failure as an error together with a nil
message; but executeLocalTool hands that nil message to TruncateMessage
before checking the error (agent.go line 278), dereferencing a nil pointer,
so the dispatch panics (modelled as none) instead of remaining
well-defined. -/
theorem subagent_decode_failure_panics :
    runSubagentM subFailEnv finderToolDef.description "x".data =
      .error "unexpected end of JSON input".data ∧
    executeTool subFailEnv "u1".data "finder".data "x".data = none := by
  exact ⟨rfl, rfl⟩

/-- C4 counterexample: dispatching the registered plan_write tool, whose
function returns the error "boom", yields a ToolResult with IsError = false
and empty content: the function's error is not turned into an IsError
ToolResult because executePlanTool overwrites it (agent.go line 345). -/
theorem executeTool_plan_error_swallowed :
    (failingPlanTool.func
      { rawInput := "x".data, plan := { id := "p1".data } }).2 =
        some "boom".data ∧
    executeTool planSwallowEnv "u1".data "plan_write".data "x".data =
      some (.toolResult "u1".data "plan_write".data [] false) := by
  exact ⟨rfl, rfl⟩

/-- C4 (amended): tool dispatch failures are captured as data: an unknown
name (absent from the MCP tool map and the registry) yields the IsError
ToolResult "tool not found"; an error from a plain (non-delegating, non-plan)
registered tool's function yields an IsError ToolResult carrying the error
text; but a plan tool's function error is discarded by executePlanTool: when
plan resolution and saving succeed the dispatch yields a non-error ToolResult
carrying the function's response string, whatever its error was.  In none of
these cases does the dispatch escalate an error to the orchestrator. -/
theorem executeTool_error_as_data (env : Env) (id name input : List Char) :
    (env.mcpNames.contains name = false →
      findTool env.toolBox name = none →
      executeTool env id name input =
        some (.toolResult id name "tool not found".data true)) ∧
    (∀ d out e, env.mcpNames.contains name = false →
      findTool env.toolBox name = some d →
      d.isSubTool = false →
      ¬ (d.name = "plan_write".data ∨ d.name = "plan_read".data) →
      d.func { rawInput := input, plan := emptyPlan } = (out, some e) →
      executeTool env id name input =
        some (.toolResult id name e true)) ∧
    (∀ d p out e, env.mcpNames.contains name = false →
      findTool env.toolBox name = some d →
      d.isSubTool = false →
      (d.name = "plan_write".data ∨ d.name = "plan_read".data) →
      env.client.getPlan env.convID = .ok (some p) →
      env.client.savePlanErr p = none →
      d.func { rawInput := input, plan := p } = (out, e) →
      executeTool env id name input =
        some (.toolResult id name out false)) := by
  refine ⟨?_, ?_, ?_⟩
  · intro h1 h2
    have h1' : ¬ name ∈ env.mcpNames := by simpa using h1
    simp [executeTool, h1', executeLocalTool, h2]
  · intro d out e h1 h2 h3 h4 h5
    have h1' : ¬ name ∈ env.mcpNames := by simpa using h1
    simp [executeTool, h1', executeLocalTool, h2, h3,
      localToolResultPair, h4, h5]
  · intro d p out e h1 h2 h3 h4 h5 h6 h7
    have h1' : ¬ name ∈ env.mcpNames := by simpa using h1
    simp [executeTool, h1', executeLocalTool, h2, h3,
      localToolResultPair, h4, executePlanToolEv, h5,
      planToolAfterResolve, h6, exceptToPair, h7]

/-- Witness for the amended C4 at concrete environments: the unknown name
case, the failing echo-like tool case, and the plan-tool case. -/
theorem executeTool_error_as_data_witness :
    (dispatchEnvW.mcpNames.contains "missing".data = false ∧
      findTool dispatchEnvW.toolBox "missing".data = none ∧
      executeTool dispatchEnvW "u9".data "missing".data "x".data =
        some (.toolResult "u9".data "missing".data
          "tool not found".data true)) ∧
    (planSwallowEnv.mcpNames.contains "plan_write".data = false ∧
      findTool planSwallowEnv.toolBox "plan_write".data =
        some failingPlanTool ∧
      executeTool planSwallowEnv "u8".data "plan_write".data "x".data =
        some (.toolResult "u8".data "plan_write".data [] false)) := by
  refine ⟨⟨rfl, rfl, ?_⟩, ⟨rfl, rfl, ?_⟩⟩
  · exact (executeTool_error_as_data dispatchEnvW "u9".data "missing".data
      "x".data).1 rfl rfl
  · exact (executeTool_error_as_data planSwallowEnv "u8".data
      "plan_write".data "x".data).2.2 failingPlanTool { id := "p1".data }
      [] (some "boom".data) rfl rfl rfl (Or.inl rfl) rfl rfl rfl

/-- C5: executePlanTool persists the Plan unconditionally: once a plan is
resolved, the SavePlan call on that plan happens whatever the tool function
returned, and when saving succeeds the returned value is the function's
response string with a nil error, independent of the function's error; on
first use (GetPlan fails with a not-found error, CreatePlan succeeds) the
store sees exactly the events GetPlan, CreatePlan, SavePlan — exactly two
persistence events, one CreatePlan followed by one SavePlan. -/
theorem executePlanTool_persist_unconditional (client : ApiClient)
    (convID rawInput : List Char)
    (toolFn : ToolInput → List Char × Option (List Char)) (p : Plan) :
    (client.getPlan convID = .ok (some p) →
      (executePlanToolEv client convID toolFn rawInput).2 =
        [.getPlanEv convID, .savePlanEv p] ∧
      (client.savePlanErr p = none →
        (executePlanToolEv client convID toolFn rawInput).1 =
          .ok (toolFn { rawInput := rawInput, plan := p }).1)) ∧
    (∀ e, client.getPlan convID = .error e → containsNotFound e = true →
      client.createPlan convID = .ok (some p) →
      (executePlanToolEv client convID toolFn rawInput).2 =
        [.getPlanEv convID, .createPlanEv convID, .savePlanEv p] ∧
      (executePlanToolEv client convID toolFn rawInput).2.filter
          isPersistEvent =
        [.createPlanEv convID, .savePlanEv p]) := by
  constructor
  · intro h
    constructor
    · cases hs : client.savePlanErr p <;>
        simp [executePlanToolEv, h, planToolAfterResolve, hs]
    · intro hs
      simp [executePlanToolEv, h, planToolAfterResolve, hs]
  · intro e hg hnf hc
    have hevs : (executePlanToolEv client convID toolFn rawInput).2 =
        [.getPlanEv convID, .createPlanEv convID, .savePlanEv p] := by
      cases hs : client.savePlanErr p <;>
        simp [executePlanToolEv, hg, hnf, hc, planToolAfterResolve, hs]
    refine ⟨hevs, ?_⟩
    rw [hevs]
    simp [isPersistEvent]

/-- Witness for C5: the first-use scenario over a concrete store whose
GetPlan reports not-found, with a tool function that itself errors. -/
theorem executePlanTool_persist_unconditional_witness :
    firstUseClient.getPlan "c1".data =
      .error "history: plan not found".data ∧
    containsNotFound "history: plan not found".data = true ∧
    firstUseClient.createPlan "c1".data = .ok (some { id := "p2".data }) ∧
    (executePlanToolEv firstUseClient "c1".data
        (fun _ => ([], some "tool failed".data)) "x".data).2 =
      [.getPlanEv "c1".data, .createPlanEv "c1".data,
        .savePlanEv { id := "p2".data }] ∧
    (executePlanToolEv firstUseClient "c1".data
        (fun _ => ([], some "tool failed".data)) "x".data).2.filter
          isPersistEvent =
      [.createPlanEv "c1".data, .savePlanEv { id := "p2".data }] := by
  refine ⟨rfl, by decide, rfl, ?_⟩
  exact (executePlanTool_persist_unconditional firstUseClient "c1".data
    "x".data (fun _ => ([], some "tool failed".data))
    { id := "p2".data }).2 "history: plan not found".data rfl (by decide) rfl

theorem executeMCPTool_shape (env : Env) (id name input : List Char) :
    ∃ tn c e, executeMCPTool env id name input =
      ContentBlock.toolResult id tn c e := by
  unfold executeMCPTool
  split
  · exact ⟨_, _, _, rfl⟩
  · exact ⟨_, _, _, rfl⟩
  · split
    · exact ⟨_, _, _, rfl⟩
    · exact ⟨_, _, _, rfl⟩

theorem executeLocalTool_shape (env : Env) (id name input : List Char)
    (r : ContentBlock) (h : executeLocalTool env id name input = some r) :
    ∃ tn c e, r = ContentBlock.toolResult id tn c e := by
  unfold executeLocalTool at h
  split at h
  · injection h with h
    exact ⟨_, _, _, h.symm⟩
  · split at h
    · split at h
      · exact absurd h (by simp)
      · injection h with h
        exact ⟨_, _, _, h.symm⟩
    · split at h
      · injection h with h
        exact ⟨_, _, _, h.symm⟩
      · injection h with h
        exact ⟨_, _, _, h.symm⟩

theorem executeTool_shape (env : Env) (id name input : List Char)
    (r : ContentBlock) (h : executeTool env id name input = some r) :
    ∃ tn c e, r = ContentBlock.toolResult id tn c e := by
  unfold executeTool at h
  split at h
  · injection h with h
    obtain ⟨tn, c, e, he⟩ := executeMCPTool_shape env id name input
    exact ⟨tn, c, e, h ▸ he⟩
  · exact executeLocalTool_shape env id name input r h

theorem dispatchResults_answers (env : Env) (bs : List ContentBlock)
    (rs : List ContentBlock) (h : dispatchResults env bs = some rs) :
    List.Forall₂ answersId rs (toolUses bs) := by
  induction bs generalizing rs with
  | nil =>
    simp [dispatchResults] at h
    subst h
    exact List.Forall₂.nil
  | cons b rest ih =>
    cases b with
    | toolUse id name input =>
      unfold dispatchResults at h
      cases hx : executeTool env id name input with
      | none => rw [hx] at h; simp at h
      | some r =>
        cases hy : dispatchResults env rest with
        | none => rw [hx, hy] at h; simp at h
        | some rs' =>
          rw [hx, hy] at h
          injection h with h
          subst h
          exact List.Forall₂.cons
            (executeTool_shape env id name input r hx) (ih rs' hy)
    | text s =>
      unfold dispatchResults at h
      unfold toolUses
      exact ih rs h
    | toolResult a b c d =>
      unfold dispatchResults at h
      unfold toolUses
      exact ih rs h

/-- C1: when the dispatch phase of the turn loop succeeds on a model message
whose ToolUse blocks number k ≥ 1, it produces exactly k results, each a
ToolResult whose ToolUseID is the id of the ToolUse it answers, in the same
relative order; they are bundled into a single user-role message, which is
appended to the history (ToNativeMessage, hypothesis htr) and to the
Conversation before the loop consumes the next inference result. -/
theorem run_toolUse_dispatch (msgErr : Message → Option (List Char))
    (ctRes : Except (List Char) Nat) (env : Env)
    (rest : List (Except (List Char) Message)) (conv : Conversation)
    (agentMsg : Message) (r0 : ContentBlock) (rs : List ContentBlock)
    (hd : dispatchResults env agentMsg.content = some (r0 :: rs))
    (hmsg : msgErr agentMsg = none)
    (htr : msgErr (toolResultMsg (r0 :: rs)) = none) :
    (r0 :: rs).length = (toolUses agentMsg.content).length ∧
    List.Forall₂ answersId (r0 :: rs) (toolUses agentMsg.content) ∧
    (toolResultMsg (r0 :: rs)).role = Role.user ∧
    (toolResultMsg (r0 :: rs)).content = r0 :: rs ∧
    runLoop msgErr ctRes env (.ok agentMsg :: rest) conv =
      runLoop msgErr ctRes env rest
        ((conv.append agentMsg).append (toolResultMsg (r0 :: rs))) := by
  have hfa := dispatchResults_answers env agentMsg.content (r0 :: rs) hd
  refine ⟨hfa.length_eq, hfa, rfl, rfl, ?_⟩
  simp [runLoop, hmsg, hd, htr]

/-- Witness for C1: a model message with two ToolUse blocks (one registered
tool, one unknown name) dispatched in the concrete environment. -/
theorem run_toolUse_dispatch_witness :
    dispatchResults dispatchEnvW agentMsgW.content =
      some (ContentBlock.toolResult "u1".data "echo".data "a".data false ::
        [ContentBlock.toolResult "u2".data "missing".data
          "tool not found".data true]) ∧
    ((ContentBlock.toolResult "u1".data "echo".data "a".data false ::
        [ContentBlock.toolResult "u2".data "missing".data
          "tool not found".data true]).length =
      (toolUses agentMsgW.content).length ∧
    List.Forall₂ answersId
      (ContentBlock.toolResult "u1".data "echo".data "a".data false ::
        [ContentBlock.toolResult "u2".data "missing".data
          "tool not found".data true]) (toolUses agentMsgW.content) ∧
    (toolResultMsg
      (ContentBlock.toolResult "u1".data "echo".data "a".data false ::
        [ContentBlock.toolResult "u2".data "missing".data
          "tool not found".data true])).role = Role.user ∧
    (toolResultMsg
      (ContentBlock.toolResult "u1".data "echo".data "a".data false ::
        [ContentBlock.toolResult "u2".data "missing".data
          "tool not found".data true])).content =
      ContentBlock.toolResult "u1".data "echo".data "a".data false ::
        [ContentBlock.toolResult "u2".data "missing".data
          "tool not found".data true] ∧
    runLoop (fun _ => none) (.ok 0) dispatchEnvW
        (.ok agentMsgW :: []) emptyConv =
      runLoop (fun _ => none) (.ok 0) dispatchEnvW []
        ((emptyConv.append agentMsgW).append (toolResultMsg
          (ContentBlock.toolResult "u1".data "echo".data "a".data false ::
            [ContentBlock.toolResult "u2".data "missing".data
              "tool not found".data true])))) :=
  ⟨rfl, run_toolUse_dispatch (fun _ => none) (.ok 0) dispatchEnvW []
    emptyConv agentMsgW
    (ContentBlock.toolResult "u1".data "echo".data "a".data false)
    [ContentBlock.toolResult "u2".data "missing".data
      "tool not found".data true] rfl rfl rfl⟩

theorem dispatchResults_of_no_toolUses (env : Env) (bs : List ContentBlock)
    (h : toolUses bs = []) : dispatchResults env bs = some [] := by
  induction bs with
  | nil => rfl
  | cons b rest ih =>
    cases b with
    | toolUse id name input => simp [toolUses] at h
    | text s =>
      unfold toolUses at h
      unfold dispatchResults
      exact ih h
    | toolResult a b c d =>
      unfold toolUses at h
      unfold dispatchResults
      exact ih h

/-- C3 counterexample: a client whose ToNativeHistory call fails (on a
non-empty history, so Run makes the call) while everything else succeeds:
Run does not return that error — it completes the turn normally, because the
error result of the ToNativeHistory call at agent.go line 77 is discarded. -/
theorem run_ignores_history_error :
    histFailLLM.toNativeHistoryErr
        (summarizeHistory convOneMsg.messages 20) =
      some "native history translation failed".data ∧
    convOneMsg.messages ≠ [] ∧
    runModel histFailLLM dispatchEnvW convOneMsg "hello".data =
      .ok { id := "c0".data,
            messages := [msgA,
              { role := .user, content := [.text "hello".data],
                sequence := 1 },
              { role := .assistant, content := [.text "hi".data],
                sequence := 2 }] } 7 := by
  refine ⟨rfl, by simp [convOneMsg], rfl⟩

/-- C3 (amended): during Run, an error from ToNativeMessage, RunInference or
CountTokens aborts the turn with that error, and the in-memory Conversation
keeps exactly the messages appended before the failing step; the error of
the ToNativeHistory call, however, is discarded (its result is ignored at
agent.go line 77), so it cannot influence Run's outcome. -/
theorem run_error_propagation :
    (∀ (llm : LLMModel) (f : List Message → Option (List Char))
        (env : Env) (conv : Conversation) (input : List Char),
      runModel { llm with toNativeHistoryErr := f } env conv input =
        runModel llm env conv input) ∧
    (∀ (llm : LLMModel) (env : Env) (conv : Conversation)
        (input e : List Char),
      llm.toNativeMessageErr (userInputMsg input) = some e →
      runModel llm env conv input =
        .error e { conv with
          messages := summarizeHistory conv.messages 20 }) ∧
    (∀ (llm : LLMModel) (env : Env) (conv : Conversation)
        (input e : List Char) (rest : List (Except (List Char) Message)),
      llm.toNativeMessageErr (userInputMsg input) = none →
      llm.inferenceResults = .error e :: rest →
      runModel llm env conv input =
        .error e ({ conv with
          messages := summarizeHistory conv.messages 20 }.append
            (userInputMsg input))) ∧
    (∀ (llm : LLMModel) (env : Env) (conv : Conversation)
        (input e : List Char) (reply : Message),
      (∀ m, llm.toNativeMessageErr m = none) →
      llm.inferenceResults = [.ok reply] →
      toolUses reply.content = [] →
      llm.countTokensResult = .error e →
      runModel llm env conv input =
        .error e (({ conv with
          messages := summarizeHistory conv.messages 20 }.append
            (userInputMsg input)).append reply)) := by
  refine ⟨?_, ?_, ?_, ?_⟩
  · intro llm f env conv input
    rfl
  · intro llm env conv input e h
    simp [runModel, h]
  · intro llm env conv input e rest h hinf
    simp [runModel, h, hinf, runLoop]
  · intro llm env conv input e reply hmsg hinf htu hct
    have hd := dispatchResults_of_no_toolUses env reply.content htu
    simp [runModel, hmsg, hinf, runLoop, hd, hct]

/-- Witness for the amended C3: each propagation case applied at concrete
models over a concrete conversation. -/
theorem run_error_propagation_witness :
    (runModel { histFailLLM with toNativeHistoryErr := fun _ => none }
        dispatchEnvW convOneMsg "hello".data =
      runModel histFailLLM dispatchEnvW convOneMsg "hello".data) ∧
    (runModel { histFailLLM with
          toNativeMessageErr := fun _ => some "bad message".data }
        dispatchEnvW convOneMsg "hello".data =
      .error "bad message".data { convOneMsg with
        messages := summarizeHistory convOneMsg.messages 20 }) ∧
    (runModel { histFailLLM with
          inferenceResults := [.error "inference failed".data] }
        dispatchEnvW convOneMsg "hello".data =
      .error "inference failed".data ({ convOneMsg with
        messages := summarizeHistory convOneMsg.messages 20 }.append
          (userInputMsg "hello".data))) ∧
    (runModel { histFailLLM with countTokensResult := .error "count failed".data }
        dispatchEnvW convOneMsg "hello".data =
      .error "count failed".data (({ convOneMsg with
        messages := summarizeHistory convOneMsg.messages 20 }.append
          (userInputMsg "hello".data)).append
            { role := .assistant, content := [.text "hi".data],
              sequence := 0 })) :=
  ⟨run_error_propagation.1 histFailLLM (fun _ => none) dispatchEnvW
      convOneMsg "hello".data,
    run_error_propagation.2.1 { histFailLLM with
        toNativeMessageErr := fun _ => some "bad message".data }
      dispatchEnvW convOneMsg "hello".data "bad message".data rfl,
    run_error_propagation.2.2.1 { histFailLLM with
        inferenceResults := [.error "inference failed".data] }
      dispatchEnvW convOneMsg "hello".data "inference failed".data [] rfl rfl,
    run_error_propagation.2.2.2 { histFailLLM with
        countTokensResult := .error "count failed".data }
      dispatchEnvW convOneMsg "hello".data "count failed".data
      { role := .assistant, content := [.text "hi".data], sequence := 0 }
      (fun _ => rfl) rfl rfl rfl⟩

theorem reachable_foldl_append (l : List Nat) (c : Conversation)
    (h : ReachableConv c) :
    ReachableConv (l.foldl (fun c _ => c.append dummyMsg) c) := by
  induction l generalizing c with
  | nil => exact h
  | cons a l ih => exact ih _ (ReachableConv.append dummyMsg h)

/-- C8 counterexample: the conversation obtained by 25 Appends to a fresh
conversation followed by one history compaction — both operations of the
orchestrator — is reachable, yet the message at index 1 carries sequence
number 5, so Messages[i].Sequence == i fails. -/
theorem seq_invariant_counterexample :
    ReachableConv conv25compact ∧ ¬ SeqOK conv25compact := by
  constructor
  · exact ReachableConv.compact
      (reachable_foldl_append (List.range 25) emptyConv ReachableConv.empty)
  · decide

/-- C8 (amended): Append assigns the sequence number at append time, equal to
the current message count, so the invariant Messages[i].Sequence == i holds
for the fresh conversation and is preserved by every Append; it is the
history compaction that breaks it, since compaction drops interior messages
without renumbering the retained ones (see the counterexample). -/
theorem seq_invariant_append :
    SeqOK emptyConv ∧
    (∀ (c : Conversation) (m : Message), SeqOK c → SeqOK (c.append m)) := by
  constructor
  · intro i h
    simp [emptyConv] at h
  · intro c m h i hi
    unfold Conversation.append at hi ⊢
    simp only [List.length_append, List.length_cons, List.length_nil] at hi
    by_cases hlt : i < c.messages.length
    · rw [List.get_append i hlt]
      exact h i hlt
    · have hie : i = c.messages.length := by omega
      subst hie
      simp

/-- Witness for the amended C8: Append applied to a concrete two-message
conversation satisfying the invariant. -/
theorem seq_invariant_append_witness :
    SeqOK { id := [], messages := [dummyMsg,
      { role := .assistant, content := [], sequence := 1 }] } ∧
    SeqOK (Conversation.append { id := [], messages := [dummyMsg,
      { role := .assistant, content := [], sequence := 1 }] } msgA) :=
  ⟨by decide, seq_invariant_append.2 { id := [], messages := [dummyMsg,
      { role := .assistant, content := [], sequence := 1 }] } msgA
    (by decide)⟩

end Tinker
